import Mathlib

/-!
Verification of the sunsynk repository's sensor decoding, option validation,
dependency traversal and live-config endpoint against its specification.

Registers are 16-bit words modelled as `Nat`; Python numeric values (int or
float) are modelled as `ℚ`; raised Python exceptions are modelled with
`Except`.
-/

namespace Sunsynk

/-- Python exceptions that the modelled code can raise. -/
inductive PyErr where
  | indexError : PyErr
  | typeError (msg : String) : PyErr
deriving Repr, DecidableEq

/-- Python values returned by `reg_to_value` (the `ValType` union):
a number (int or float, both modelled as `ℚ`), a string, a boolean,
or `None` (absent). -/
inductive Value where
  | num (q : ℚ) : Value
  | str (s : String) : Value
  | bool (b : Bool) : Value
  | none : Value
deriving Repr, DecidableEq

/-- Modelled from the spec: `slug` of `sunsynk/helpers.py` (the helpers file
is not under src/).  The spec describes sensor identity as a "stable slug
derived from name"; the slug lower-cases the name and replaces spaces and
dashes by underscores. -/
def slug (s : String) : String :=
  String.map (fun c => if c = ' ' ∨ c = '-' then '_' else c) (String.toLower s)

/-- Modelled from the spec: `signed` of `sunsynk/helpers.py` (not under src/):
"negative factor means two's-complement decode over the full register width".
`signed v bits` reinterprets the unsigned value `v` as a two's-complement
signed integer of width `bits`. -/
def signed (v : ℤ) (bits : ℕ := 16) : ℤ :=
  if 2 ^ (bits - 1) ≤ v then v - 2 ^ bits else v

/-- Modelled from the spec: `int_round` of `sunsynk/helpers.py` (not under
src/): "rounds to int if the result is integral within 1e-9 else preserves
float".  The spec's "half-away-from-zero" rounding and `round` agree here,
because the two modes only differ on exact halves, which are never within
`1e-9` of an integer. -/
def int_round (v : ℚ) : ℚ :=
  if |v - (round v : ℚ)| < 1 / 1000000000 then (round v : ℚ) else v

/-- The `Sensor` attrs class of `src/sunsynk/sensors.py`.  The private
attribute `_load_limit` is modelled as `load_limit`. -/
structure Sensor where
  address : List ℕ
  name : String
  unit : String := ""
  factor : ℚ := 1
  bitmask : ℕ := 0
  absolute : Bool := false
  zero_export_absolute : Bool := false
  load_limit : Option ℤ := Option.none
deriving Repr, DecidableEq

/-- The sensor ID (`Sensor.id` property): slug of the name. -/
def Sensor.id (s : Sensor) : String := slug s.name

/-- The `Sensor.masked` method: applies the bitmask to every register word
when the bitmask is non-zero (Python truthiness of `self.bitmask`). -/
def Sensor.masked (s : Sensor) (regs : List ℕ) : List ℕ :=
  if s.bitmask ≠ 0 then regs.map (fun r => r &&& s.bitmask) else regs

/-- The `Sensor.reg_to_value` method of `src/sunsynk/sensors.py`:
mask, combine the first word with the second word shifted left 16 (words
beyond the second are not read), two's-complement decode over `16·len(regs)`
bits when `factor < 0`, multiply by `|factor|`, round, then apply the
`absolute` and `zero_export_absolute` sign flips.  Indexing the empty tuple
raises `IndexError`. -/
def Sensor.reg_to_value (s : Sensor) (regs : List ℕ) : Except PyErr Value :=
  match Sensor.masked s regs with
  | [] => .error .indexError
  | r0 :: rest =>
      let val0 : ℤ :=
        match rest with
        | [] => (r0 : ℤ)
        | r1 :: _ => (r0 : ℤ) + (r1 : ℤ) * 65536
      let val1 : ℤ :=
        if s.factor < 0 then signed val0 (16 * (r0 :: rest).length) else val0
      let v0 : ℚ := int_round ((val1 : ℚ) * |s.factor|)
      let v1 : ℚ := if s.absolute = true ∧ v0 < 0 then -v0 else v0
      let v2 : ℚ :=
        if s.zero_export_absolute = true ∧ s.load_limit = some 2 ∧ v1 < 0
        then -v1 else v1
      .ok (.num v2)

/-- Little-endian combination of a register tuple: word `i` contributes
`regs[i] · 2^(16·i)`.  Used to state the spec's "combined unsigned value". -/
def combineLE : List ℕ → ℕ
  | [] => 0
  | r :: rest => r + 65536 * combineLE rest

end Sunsynk

namespace Sunsynk

lemma int_round_neg_of_le {q : ℚ} (h : q ≤ -(1 / 1000000000)) : int_round q < 0 := by
  unfold int_round
  split
  · rename_i hlt
    have h1 : (round q : ℚ) - q ≤ |q - (round q : ℚ)| := by
      rw [abs_sub_comm]
      exact le_abs_self _
    linarith
  · linarith

end Sunsynk

namespace Sunsynk

lemma masked_of_bitmask_zero (s : Sensor) (regs : List ℕ) (hb : s.bitmask = 0) :
    Sensor.masked s regs = regs := by
  simp [Sensor.masked, hb]

lemma int_round_intcast (z : ℤ) : int_round (z : ℚ) = (z : ℚ) := by
  unfold int_round
  simp [round_intCast]

lemma sensor_flips_nonneg (s : Sensor) (v : ℚ) (hv : 0 ≤ v) :
    (if s.zero_export_absolute = true ∧ s.load_limit = some 2 ∧
        (if s.absolute = true ∧ v < 0 then -v else v) < 0
      then -(if s.absolute = true ∧ v < 0 then -v else v)
      else (if s.absolute = true ∧ v < 0 then -v else v)) = v := by
  have hinner : (if s.absolute = true ∧ v < 0 then -v else v) = v := by
    rw [if_neg]
    rintro ⟨_, h⟩
    linarith
  rw [hinner, if_neg]
  rintro ⟨_, _, h⟩
  linarith

/-- C1 (amended). For a sensor with `factor ≤ -1e-9`, `bitmask = 0`,
`absolute = false` and `zero_export_absolute = false`, decoding a register
tuple of one or two 16-bit words whose combined unsigned value has its high
bit (bit `16·len(regs) - 1`) set yields a negative value.  (The original
claim fails for sensors with the `absolute` flag, for tuples of three or
more words — `reg_to_value` never reads words beyond the second — and for
factors smaller in magnitude than the `1e-9` rounding tolerance.) -/
theorem reg_to_value_signed_highbit_neg (s : Sensor) (regs : List ℕ)
    (hf : s.factor ≤ -(1 / 1000000000))
    (hb : s.bitmask = 0) (ha : s.absolute = false)
    (hz : s.zero_export_absolute = false)
    (hlen : regs.length = 1 ∨ regs.length = 2)
    (hw : ∀ r ∈ regs, r < 65536)
    (hhi : Nat.testBit (combineLE regs) (16 * regs.length - 1) = true) :
    ∃ v : ℚ, Sensor.reg_to_value s regs = .ok (.num v) ∧ v < 0 := by
  have hf0 : s.factor < 0 := lt_of_le_of_lt hf (by norm_num)
  have habs : |s.factor| = -s.factor := abs_of_neg hf0
  have hfge : (1 / 1000000000 : ℚ) ≤ -s.factor := by linarith
  have key : ∀ val1 : ℤ, val1 ≤ -1 →
      ∃ v : ℚ, int_round ((val1 : ℚ) * |s.factor|) = v ∧ v < 0 := by
    intro val1 h1
    refine ⟨_, rfl, ?_⟩
    apply int_round_neg_of_le
    rw [habs]
    have h2 : (val1 : ℚ) ≤ -1 := by exact_mod_cast h1
    have h3 : (val1 : ℚ) * -s.factor ≤ (-1) * -s.factor := by
      apply mul_le_mul_of_nonneg_right h2 (by linarith)
    linarith
  rcases regs with _ | ⟨r0, _ | ⟨r1, tail⟩⟩
  · simp at hlen
  · have hw0 : r0 < 65536 := hw r0 (by simp)
    have hc : combineLE [r0] = r0 := by simp [combineLE]
    rw [hc] at hhi
    rw [Nat.testBit_to_div_mod] at hhi
    simp only [List.length_cons, List.length_nil, decide_eq_true_eq] at hhi
    norm_num at hhi
    have hr0 : 32768 ≤ r0 := by omega
    have hsig : signed (r0 : ℤ) 16 = (r0 : ℤ) - 65536 := by
      have hcond : (2 : ℤ) ^ (16 - 1) ≤ (r0 : ℤ) := by norm_num; omega
      unfold signed
      rw [if_pos hcond]
      norm_num
    obtain ⟨v, hv, hvneg⟩ := key ((r0 : ℤ) - 65536) (by omega)
    push_cast at hv
    refine ⟨v, ?_, hvneg⟩
    simp only [Sensor.reg_to_value, masked_of_bitmask_zero s _ hb]
    simp only [List.length_cons, List.length_nil, if_pos hf0, ha, hz]
    norm_num [hsig, hv]
  · rcases tail with _ | _
    · have hw0 : r0 < 65536 := hw r0 (by simp)
      have hw1 : r1 < 65536 := hw r1 (by simp)
      have hc : combineLE [r0, r1] = r0 + 65536 * r1 := by simp [combineLE]
      rw [hc] at hhi
      rw [Nat.testBit_to_div_mod] at hhi
      simp only [List.length_cons, List.length_nil, decide_eq_true_eq] at hhi
      norm_num at hhi
      have hr1 : 2147483648 ≤ r0 + 65536 * r1 := by omega
      have hsig : signed ((r0 : ℤ) + (r1 : ℤ) * 65536) 32
          = (r0 : ℤ) + (r1 : ℤ) * 65536 - 4294967296 := by
        have hcond : (2 : ℤ) ^ (32 - 1) ≤ (r0 : ℤ) + (r1 : ℤ) * 65536 := by
          norm_num; omega
        unfold signed
        rw [if_pos hcond]
        norm_num
      obtain ⟨v, hv, hvneg⟩ :=
        key ((r0 : ℤ) + (r1 : ℤ) * 65536 - 4294967296) (by omega)
      push_cast at hv
      refine ⟨v, ?_, hvneg⟩
      simp only [Sensor.reg_to_value, masked_of_bitmask_zero s _ hb]
      simp only [List.length_cons, List.length_nil, if_pos hf0, ha, hz]
      norm_num [hsig, hv]
    · simp at hlen

/-- Witness for `reg_to_value_signed_highbit_neg`: the spec's own concrete
scenario, a sensor with `factor = -0.1` decoding `(0xFFFE,)`, satisfies all
hypotheses and indeed decodes to a negative value. -/
theorem reg_to_value_signed_highbit_neg_witness :
    ∃ v : ℚ, Sensor.reg_to_value
        { address := [1], name := "x", factor := -1/10 } [65534]
      = .ok (.num v) ∧ v < 0 :=
  reg_to_value_signed_highbit_neg
    { address := [1], name := "x", factor := -1/10 } [65534]
    (by norm_num) rfl rfl rfl (Or.inl rfl)
    (by intro r hr; simp at hr; omega) (by decide)

/-- A sensor with a negative factor but `absolute = true`: the high bit of
`(0xFFFE,)` is set and `factor = -0.1 < 0`, yet the decoded value is the
positive `0.2`, refuting the original C1 claim that the result is always
negative. -/
def s1cex : Sensor :=
  { address := [1], name := "battery_power", factor := -1/10, absolute := true }

/-- C1 counterexample: `s1cex` has `factor < 0` and the register tuple
`(0xFFFE,)` has its high bit set, but `reg_to_value` returns `0.2`, which is
not negative. -/
theorem reg_to_value_signed_highbit_neg_cex :
    s1cex.factor < 0 ∧ Nat.testBit (combineLE [65534]) 15 = true ∧
    Sensor.reg_to_value s1cex [65534] = .ok (.num (1/5)) ∧ ¬ ((1/5 : ℚ) < 0) := by
  refine ⟨by norm_num [s1cex], by decide, ?_, by norm_num⟩
  simp only [Sensor.reg_to_value, Sensor.masked, s1cex]
  norm_num [signed, int_round, round_eq, abs, max_def]

end Sunsynk

namespace Sunsynk

/-- C2 (amended). For every sensor with `factor = 1` and no bitmask,
`reg_to_value` combines only the first two 16-bit words little-endian:
the result is `regs[0] + regs[1]·2^16` (with `regs[1]` read as 0 when the
tuple has a single word); words beyond the second are ignored. -/
theorem reg_to_value_two_word_le (s : Sensor) (regs : List ℕ) (r0 : ℕ)
    (rest : List ℕ) (hf : s.factor = 1) (hb : s.bitmask = 0)
    (hregs : regs = r0 :: rest) :
    Sensor.reg_to_value s regs
      = .ok (.num ((r0 : ℚ) + (rest.headD 0 : ℚ) * 65536)) := by
  subst hregs
  rcases rest with _ | ⟨r1, t⟩
  · have h1 : int_round ((r0 : ℚ)) = (r0 : ℚ) := by
      have := int_round_intcast (r0 : ℤ)
      push_cast at this
      simpa using this
    simp only [Sensor.reg_to_value, masked_of_bitmask_zero s _ hb, hf]
    norm_num [h1]
    refine sensor_flips_nonneg s _ ?_
    positivity
  · have h1 : int_round ((r0 : ℚ) + (r1 : ℚ) * 65536) =
        (r0 : ℚ) + (r1 : ℚ) * 65536 := by
      have := int_round_intcast ((r0 : ℤ) + (r1 : ℤ) * 65536)
      push_cast at this
      simpa using this
    simp only [Sensor.reg_to_value, masked_of_bitmask_zero s _ hb, hf]
    norm_num [h1]
    have hpos : (0 : ℚ) ≤ (r0 : ℚ) + (r1 : ℚ) * 65536 := by positivity
    have hin : (if s.absolute = true ∧ ((r0 : ℚ) + (r1 : ℚ) * 65536) < 0
        then -((r1 : ℚ) * 65536) + -(r0 : ℚ) else (r0 : ℚ) + (r1 : ℚ) * 65536)
        = (r0 : ℚ) + (r1 : ℚ) * 65536 := by
      rw [if_neg]
      rintro ⟨_, h⟩
      linarith
    rw [hin, if_neg]
    rintro ⟨_, _, h⟩
    linarith

/-- Witness for `reg_to_value_two_word_le`: the spec's multi-word scenario,
registers `(0x0001, 0x0002)` with `factor = 1`, decodes to
`0x00020001 = 131073`. -/
theorem reg_to_value_two_word_le_witness :
    Sensor.reg_to_value { address := [1, 2], name := "x" } [1, 2]
      = .ok (.num 131073) := by
  have h := reg_to_value_two_word_le { address := [1, 2], name := "x" }
    [1, 2] 1 [2] rfl rfl rfl
  rw [h]
  norm_num

/-- A three-register sensor used to refute the "each further word shifted 16
more bits" part of C2. -/
def s2cex : Sensor := { address := [60, 61, 62], name := "three_word", factor := 1 }

/-- C2 counterexample: registers `(0, 0, 1)` on a `factor = 1` sensor decode
to `0`, not to the little-endian combination `2^32 = 4294967296`: the third
word is never read by `reg_to_value`. -/
theorem reg_to_value_two_word_le_cex :
    Sensor.reg_to_value s2cex [0, 0, 1] = .ok (.num 0) ∧
    combineLE [0, 0, 1] = 4294967296 ∧ (0 : ℚ) ≠ 4294967296 := by
  refine ⟨?_, by decide, by norm_num⟩
  simp only [Sensor.reg_to_value, Sensor.masked, s2cex]
  norm_num [int_round, round_eq]

/-- C5 (amended). `Sensor.reg_to_value` performs no width validation at all:
every non-empty register tuple decodes to a numeric value regardless of the
sensor's declared address width, and the empty tuple raises `IndexError`
rather than returning absent. -/
theorem reg_to_value_no_width_check :
    (∀ (s : Sensor) (regs : List ℕ), regs ≠ [] →
      ∃ v : ℚ, Sensor.reg_to_value s regs = .ok (.num v)) ∧
    (∀ s : Sensor, Sensor.reg_to_value s [] = .error .indexError) := by
  constructor
  · intro s regs hne
    rcases regs with _ | ⟨r, rest⟩
    · exact absurd rfl hne
    · have hne2 : Sensor.masked s (r :: rest) ≠ [] := by
        unfold Sensor.masked
        split <;> simp
      rcases hmm : Sensor.masked s (r :: rest) with _ | ⟨m0, mrest⟩
      · exact absurd hmm hne2
      · simp only [Sensor.reg_to_value, hmm]
        exact ⟨_, rfl⟩
  · intro s
    have hm : Sensor.masked s [] = [] := by
      unfold Sensor.masked
      split <;> simp
    simp only [Sensor.reg_to_value, hm]

/-- Witness for `reg_to_value_no_width_check`: a width-1 sensor still decodes
the two-word tuple `(7, 0)`. -/
theorem reg_to_value_no_width_check_witness :
    ∃ v : ℚ, Sensor.reg_to_value { address := [5], name := "w" } [7, 0]
      = .ok (.num v) :=
  reg_to_value_no_width_check.1 { address := [5], name := "w" } [7, 0]
    (by simp)

/-- A width-1 sensor for the C5 counterexample. -/
def s5cex : Sensor := { address := [5], name := "width_one" }

/-- C5 counterexample: on a sensor of declared width 1, the mismatched
two-word tuple `(7, 0)` decodes to the value `7` — not absent — and the
empty tuple raises `IndexError` instead of returning absent. -/
theorem reg_to_value_no_width_check_cex :
    s5cex.address.length = 1 ∧
    Sensor.reg_to_value s5cex [7, 0] = .ok (.num 7) ∧
    Value.num 7 ≠ Value.none ∧
    Sensor.reg_to_value s5cex [] = .error .indexError := by
  refine ⟨rfl, ?_, by decide, ?_⟩
  · simp only [Sensor.reg_to_value, Sensor.masked, s5cex]
    norm_num [int_round, round_eq]
  · simp only [Sensor.reg_to_value, Sensor.masked, s5cex]
    norm_num

end Sunsynk

namespace Sunsynk

/-- Python's `f"{n:02}"` format: the decimal rendering of `n`, zero-padded on
the left to two characters. -/
def pad2 (k : ℕ) : String := if k < 10 then "0" ++ toString k else toString k

/-- Python's `str.strip()`: remove leading and trailing whitespace. -/
def pyStrip (s : String) : String :=
  String.mk
    ((((s.data.dropWhile Char.isWhitespace).reverse.dropWhile
        Char.isWhitespace).reverse))

/-- The message built for one set bit in `FaultSensor.reg_to_value`:
`f"F{bit+off+1:02} " + faults.get(off + msk, "")` followed by `.strip()`,
with `msk = 1 << bit`. -/
def faultMsg (faults : List (ℕ × String)) (off bit : ℕ) : String :=
  pyStrip ("F" ++ pad2 (bit + off + 1) ++ " " ++
    ((faults.lookup (off + (1 <<< bit))).getD ""))

/-- The inner loop of `FaultSensor.reg_to_value`: for one register word
`b16` at word offset `off`, collect a message for every set bit
(`for bit in range(16): if (1 << bit) & b16: err.append(...)`). -/
def wordLabels (faults : List (ℕ × String)) (off b16 : ℕ) : List String :=
  (List.range 16).filterMap fun bit =>
    if (1 <<< bit) &&& b16 ≠ 0 then some (faultMsg faults off bit) else none

/-- The outer loop of `FaultSensor.reg_to_value`: iterate the register words,
advancing the bit offset by 16 for each word. -/
def faultErrs (faults : List (ℕ × String)) : List ℕ → ℕ → List String
  | [], _ => []
  | b16 :: rest, off => wordLabels faults off b16 ++ faultErrs faults rest (off + 16)

/-- The body of `FaultSensor.reg_to_value` (and of the structurally identical
`HVFaultSensor.reg_to_value`), parametrised by the fault table:
`", ".join(err)` over all collected messages. -/
def faultDecode (faults : List (ℕ × String)) (regs : List ℕ) : String :=
  String.intercalate ", " (faultErrs faults regs 0)

/-- The fault table hard-coded in `FaultSensor.reg_to_value` of
`src/sunsynk/sensors.py`. -/
def FaultSensor_faults : List (ℕ × String) :=
  [(13, "Working mode change"), (18, "AC over current"), (20, "DC over current"),
   (23, "F23 AC leak current or transient over current"),
   (24, "F24 DC insulation impedance"), (26, "F26 DC busbar imbalanced"),
   (29, "Parallel comms cable"), (35, "No AC grid"), (42, "AC line low voltage"),
   (47, "AC freq high/low"), (56, "DC busbar voltage low"), (63, "ARC fault"),
   (64, "Heat sink tempfailure")]

/-- The `FaultSensor.reg_to_value` method (the sensor's fields are not used
by the decode). -/
def FaultSensor_reg_to_value (regs : List ℕ) : Except PyErr Value :=
  .ok (.str (faultDecode FaultSensor_faults regs))

/-- The label the code actually produces for global bit index `k`
(word `k / 16`, bit `k % 16`): prefix `F(k+1)` zero-padded, table text looked
up at key `16·(k/16) + 2^(k%16)`. -/
def faultLabelCode (faults : List (ℕ × String)) (k : ℕ) : String :=
  pyStrip ("F" ++ pad2 (k + 1) ++ " " ++
    ((faults.lookup (16 * (k / 16) + (1 <<< (k % 16)))).getD ""))

/-- The label described by the claim for global bit index `k`: prefix
`F(k+1)` with the table text looked up at the fault number `k + 1` itself.
This follows the spec's words and is compared against the code. -/
def faultLabelClaim (faults : List (ℕ × String)) (k : ℕ) : String :=
  pyStrip ("F" ++ pad2 (k + 1) ++ " " ++ ((faults.lookup (k + 1)).getD ""))

/-- The fault decode as described by the claim (spec side): one label per set
bit of the combined register value, text looked up by fault number, joined
by `", "`. -/
def faultDecodeClaim (faults : List (ℕ × String)) (regs : List ℕ) : String :=
  String.intercalate ", " ((List.range (16 * regs.length)).filterMap fun k =>
    if Nat.testBit (combineLE regs) k then some (faultLabelClaim faults k) else none)

lemma shiftLeft_and_ne (m j : ℕ) : ((1 <<< j) &&& m ≠ 0) ↔ Nat.testBit m j = true := by
  rw [Nat.shiftLeft_eq, one_mul, Nat.two_pow_and]
  rcases h : Nat.testBit m j
  · simp [h]
  · simp [h]

lemma testBit_low (b c j : ℕ) (hj : j < 16) :
    Nat.testBit (b + 65536 * c) j = Nat.testBit b j := by
  have h1 : (65536 : ℕ) * c = 2 ^ (15 - j) * c * 2 * 2 ^ j := by
    have h2 : (15 - j) + 1 + j = 16 := by omega
    calc (65536 : ℕ) * c = 2 ^ 16 * c := by norm_num
      _ = 2 ^ ((15 - j) + 1 + j) * c := by rw [h2]
      _ = 2 ^ (15 - j) * c * 2 * 2 ^ j := by
          rw [pow_add, pow_add]
          ring
  rw [Nat.testBit_to_div_mod, Nat.testBit_to_div_mod, h1,
    Nat.add_mul_div_right _ _ (Nat.pos_pow_of_pos j (by norm_num))]
  generalize 2 ^ (15 - j) * c = m
  generalize b / 2 ^ j = a
  have : (a + m * 2) % 2 = a % 2 := by omega
  rw [this]

lemma testBit_high (b c j : ℕ) (hb : b < 65536) :
    Nat.testBit (b + 65536 * c) (16 + j) = Nat.testBit c j := by
  rw [Nat.testBit_to_div_mod, Nat.testBit_to_div_mod]
  have h1 : (b + 65536 * c) / 2 ^ (16 + j) = c / 2 ^ j := by
    rw [pow_add, ← Nat.div_div_eq_div_mul]
    norm_num
    rw [Nat.add_mul_div_left _ _ (by norm_num : (0 : ℕ) < 65536),
      Nat.div_eq_of_lt hb]
    simp
  rw [h1]

lemma faultErrs_eq (faults : List (ℕ × String)) :
    ∀ (regs : List ℕ) (w : ℕ), (∀ r ∈ regs, r < 65536) →
    faultErrs faults regs (16 * w)
      = (List.range (16 * regs.length)).filterMap fun j =>
          if Nat.testBit (combineLE regs) j
          then some (faultLabelCode faults (16 * w + j)) else none
  | [], w, _ => by simp [faultErrs, combineLE]
  | b :: rest, w, hw => by
    have hb : b < 65536 := hw b (by simp)
    have hrest : ∀ r ∈ rest, r < 65536 := fun r hr => hw r (by simp [hr])
    have ih := faultErrs_eq faults rest (w + 1) hrest
    show wordLabels faults (16 * w) b ++ faultErrs faults rest (16 * w + 16) = _
    have h16 : 16 * w + 16 = 16 * (w + 1) := by ring
    rw [h16, ih]
    have hlen : 16 * (b :: rest).length = 16 + 16 * rest.length := by
      simp [List.length_cons]
      ring
    rw [hlen, List.range_add, List.filterMap_append, List.filterMap_map]
    congr 1
    · unfold wordLabels
      apply List.filterMap_congr
      intro j hj
      have hj16 : j < 16 := List.mem_range.mp hj
      have hcomb : combineLE (b :: rest) = b + 65536 * combineLE rest := rfl
      rw [hcomb, testBit_low b _ j hj16]
      simp only [shiftLeft_and_ne]
      rcases htb : Nat.testBit b j
      · simp [htb]
      · simp only [htb, if_pos]
        congr 1
        unfold faultMsg faultLabelCode
        have e1 : 16 * w + j + 1 = j + 16 * w + 1 := by ring
        have e2 : 16 * ((16 * w + j) / 16) = 16 * w := by
          congr 1
          omega
        have e3 : (16 * w + j) % 16 = j := by omega
        rw [e1, e2, e3]
    · apply List.filterMap_congr
      intro j hj
      have hcomb : combineLE (b :: rest) = b + 65536 * combineLE rest := rfl
      rw [Function.comp_apply, hcomb, testBit_high b _ j hb]
      have e4 : 16 * w + (16 + j) = 16 * (w + 1) + j := by ring
      rw [e4]

/-- C3 (amended). `FaultSensor.reg_to_value` iterates every bit of every
register word with bit indexing continuing across words; for each set global
bit `k` it emits the label `F(k+1)` (zero-padded to two digits) followed by
the table text looked up at key `16·(k/16) + 2^(k%16)` — not at the fault
number `k+1` — stripped, and joins the labels with `", "`.  For registers
`(0x0002, 0x0001)` and a table `{2: "X", 17: "Y"}` the result is
`"F02 X, F17 Y"`; the real `FaultSensor` table has no entries for 2 or 17,
so the same registers decode to `"F02, F17"`. -/
theorem faultDecode_global_bits :
    (∀ (faults : List (ℕ × String)) (regs : List ℕ),
      (∀ r ∈ regs, r < 65536) →
      faultDecode faults regs
        = String.intercalate ", "
            ((List.range (16 * regs.length)).filterMap fun k =>
              if Nat.testBit (combineLE regs) k
              then some (faultLabelCode faults k) else none)) ∧
    faultDecode [(2, "X"), (17, "Y")] [2, 1] = "F02 X, F17 Y" ∧
    FaultSensor_reg_to_value [2, 1] = .ok (.str "F02, F17") := by
  refine ⟨?_, by decide, ?_⟩
  case refine_2 =>
    unfold FaultSensor_reg_to_value
    rw [(by decide : faultDecode FaultSensor_faults [2, 1] = "F02, F17")]
  intro faults regs hw
  have h := faultErrs_eq faults regs 0 hw
  unfold faultDecode
  norm_num at h
  rw [h]

/-- Witness for `faultDecode_global_bits`: the global-bit description applied
to the concrete registers `(0x0000, 0x0008)` of the real fault table. -/
theorem faultDecode_global_bits_witness :
    faultDecode FaultSensor_faults [0, 8]
      = String.intercalate ", "
          ((List.range (16 * ([0, 8] : List ℕ).length)).filterMap fun k =>
            if Nat.testBit (combineLE [0, 8]) k
            then some (faultLabelCode FaultSensor_faults k) else none) :=
  faultDecode_global_bits.1 FaultSensor_faults [0, 8]
    (by intro r hr; simp at hr; rcases hr with h | h <;> omega)

/-- C3 counterexample: at the claim's own concrete input — registers
`(0x0002, 0x0001)` with table `{2: "F02 X", 17: "F17 Y"}` — the code yields
`"F02 F02 X, F17 F17 Y"` (the `Fnn` prefix is prepended to the table text),
not the claimed `"F02 X, F17 Y"`; and the table text is looked up at key
`16·w + 2^bit`, not the fault number: for registers `(0x0000, 0x0008)` (fault
number 20) the code attaches the table text of key 24 while the claim's
reading yields the text of key 20. -/
theorem faultDecode_global_bits_cex :
    faultDecode [(2, "F02 X"), (17, "F17 Y")] [2, 1] = "F02 F02 X, F17 F17 Y" ∧
    "F02 F02 X, F17 F17 Y" ≠ "F02 X, F17 Y" ∧
    faultDecodeClaim FaultSensor_faults [0, 8] = "F20 DC over current" ∧
    FaultSensor_reg_to_value [0, 8]
      = .ok (.str "F20 F24 DC insulation impedance") := by
  refine ⟨by decide, by decide, by decide, ?_⟩
  unfold FaultSensor_reg_to_value
  rw [(by decide : faultDecode FaultSensor_faults [0, 8]
    = "F20 F24 DC insulation impedance")]

end Sunsynk

namespace Sunsynk

/-- The `EnumSensor` attrs class (`src/sunsynk/sensors.py`): a text sensor
with an integer-to-label map. -/
structure EnumSensor extends Sensor where
  options : List (ℕ × String) := []
deriving Repr, DecidableEq

/-- The `EnumSensor.reg_to_value` method: look the masked first register up
in the options map; an unmapped value logs a warning and returns `None`
(absent). -/
def EnumSensor.reg_to_value (e : EnumSensor) (regs : List ℕ) : Except PyErr Value :=
  match Sensor.masked e.toSensor regs with
  | [] => .error .indexError
  | r0 :: _ =>
      match e.options.lookup r0 with
      | some lbl => .ok (.str lbl)
      | Option.none => .ok Value.none

/-- The label map hard-coded in `InverterStateSensor.reg_to_value`. -/
def inverterStateOptions : List (ℕ × String) :=
  [(0, "standby"), (1, "selfcheck"), (2, "ok"), (3, "alarm"), (4, "fault"),
   (5, "activating")]

/-- The `InverterStateSensor.reg_to_value` method:
`{...}.get(regs[0]) or f"unknown {regs[0]}"` — the raw (unmasked) first
register is looked up; a miss (or a falsy label) yields `unknown <n>`. -/
def InverterStateSensor_reg_to_value (regs : List ℕ) : Except PyErr Value :=
  match regs with
  | [] => .error .indexError
  | r0 :: _ =>
      .ok (.str (match inverterStateOptions.lookup r0 with
        | some lbl => if lbl = "" then "unknown " ++ toString r0 else lbl
        | Option.none => "unknown " ++ toString r0))

/-- The label map hard-coded in `SDStatusSensor.reg_to_value`. -/
def sdStatusOptions : List (ℕ × String) := [(1000, "fault"), (2000, "ok")]

/-- The `SDStatusSensor.reg_to_value` method. -/
def SDStatusSensor_reg_to_value (regs : List ℕ) : Except PyErr Value :=
  match regs with
  | [] => .error .indexError
  | r0 :: _ =>
      .ok (.str (match sdStatusOptions.lookup r0 with
        | some lbl => if lbl = "" then "unknown " ++ toString r0 else lbl
        | Option.none => "unknown " ++ toString r0))

/-- C4 (amended). Enum and text sensors map the register value through their
integer-to-label map, but they do not agree on unmapped values:
`EnumSensor` maps the *masked* first register and returns absent (`None`) on
a miss, while `InverterStateSensor` looks up the raw first register in its
fixed six-entry map and returns `unknown <n>` on a miss. -/
theorem enum_text_reg_to_value (e : EnumSensor) (r0 : ℕ) (rest : List ℕ)
    (n : ℕ) (hn : 5 < n) :
    (∀ lbl : String,
      e.options.lookup (if e.bitmask ≠ 0 then r0 &&& e.bitmask else r0)
          = some lbl →
      EnumSensor.reg_to_value e (r0 :: rest) = .ok (.str lbl)) ∧
    (e.options.lookup (if e.bitmask ≠ 0 then r0 &&& e.bitmask else r0)
        = Option.none →
      EnumSensor.reg_to_value e (r0 :: rest) = .ok Value.none) ∧
    InverterStateSensor_reg_to_value (n :: rest)
      = .ok (.str ("unknown " ++ toString n)) := by
  have hm : Sensor.masked e.toSensor (r0 :: rest)
      = (if e.bitmask ≠ 0 then r0 &&& e.bitmask else r0)
        :: (if e.bitmask ≠ 0 then rest.map (fun r => r &&& e.bitmask) else rest) := by
    unfold Sensor.masked
    split <;> simp_all
  refine ⟨?_, ?_, ?_⟩
  · intro lbl hl
    simp only [EnumSensor.reg_to_value, hm, hl]
  · intro hl
    simp only [EnumSensor.reg_to_value, hm, hl]
  · have hlook : inverterStateOptions.lookup n = Option.none := by
      unfold inverterStateOptions
      simp only [List.lookup]
      have h0 : (n == 0) = false := by simp; omega
      have h1 : (n == 1) = false := by simp; omega
      have h2 : (n == 2) = false := by simp; omega
      have h3 : (n == 3) = false := by simp; omega
      have h4 : (n == 4) = false := by simp; omega
      have h5 : (n == 5) = false := by simp; omega
      simp [h0, h1, h2, h3, h4, h5]
    simp only [InverterStateSensor_reg_to_value, hlook]

/-- Witness for `enum_text_reg_to_value`: an enum sensor with map
`{1: "on"}` and bitmask 0 maps register 1 to `"on"`, returns absent for the
unmapped register value of the same sensor, and the inverter-state sensor
reports `unknown 6` for state 6. -/
theorem enum_text_reg_to_value_witness :
    (∀ lbl : String,
      List.lookup (if (0 : ℕ) ≠ 0 then 1 &&& 0 else 1) [(1, "on")] = some lbl →
      EnumSensor.reg_to_value
        { address := [9], name := "mode", options := [(1, "on")] } [1]
        = .ok (.str lbl)) ∧
    (List.lookup (if (0 : ℕ) ≠ 0 then 1 &&& 0 else 1) [(1, "on")] = Option.none →
      EnumSensor.reg_to_value
        { address := [9], name := "mode", options := [(1, "on")] } [1]
        = .ok Value.none) ∧
    InverterStateSensor_reg_to_value [6] = .ok (.str ("unknown " ++ toString 6)) :=
  enum_text_reg_to_value
    { address := [9], name := "mode", options := [(1, "on")] } 1 [] 6
    (by norm_num)

/-- The enum sensor of the C4 counterexample: map `{1: "on"}`. -/
def s4cex : EnumSensor := { address := [9], name := "mode", options := [(1, "on")] }

/-- C4 counterexample: decoding the unmapped register value 5 with an
`EnumSensor` returns absent (`None`), not the string `"unknown 5"`. -/
theorem enum_text_reg_to_value_cex :
    EnumSensor.reg_to_value s4cex [5] = .ok Value.none ∧
    Value.none ≠ Value.str "unknown 5" := by
  constructor
  · rfl
  · decide

end Sunsynk

namespace Sunsynk

/-- A Python object handed to `Sensor.__eq__`: either another sensor or a
non-`Sensor` object, carrying the `str(type(other))` text used in the raised
`TypeError`. -/
inductive PyObj where
  | sensor (s : Sensor) : PyObj
  | other (typeName : String) : PyObj
deriving Repr, DecidableEq

/-- The `Sensor.__eq__` method of `src/sunsynk/sensors.py`: comparing with a
non-`Sensor` raises `TypeError(str(type(other)))`; otherwise equality is
`self.id == other.id`. -/
def Sensor.eq (a : Sensor) (o : PyObj) : Except PyErr Bool :=
  match o with
  | .sensor b => .ok (Sensor.id a == Sensor.id b)
  | .other t => .error (.typeError t)

/-- C10. Sensor equality is decided by the ID alone — `a == b` succeeds and
returns exactly `slug(a.name) == slug(b.name)`, so no field other than the
name can influence it — and comparing a sensor with any non-`Sensor` object
raises `TypeError` instead of returning `False`. -/
theorem sensor_eq_by_id :
    (∀ a b : Sensor, Sensor.eq a (.sensor b) = .ok (slug a.name == slug b.name)) ∧
    (∀ a b : Sensor, Sensor.eq a (.sensor b) = .ok true ↔ slug a.name = slug b.name) ∧
    (∀ (a : Sensor) (t : String), Sensor.eq a (.other t) = .error (.typeError t)) := by
  refine ⟨fun a b => rfl, fun a b => ?_, fun a t => rfl⟩
  unfold Sensor.eq Sensor.id
  constructor
  · intro h
    have hb : (slug a.name == slug b.name) = true := by
      have := congrArg (fun e => match e with
        | Except.ok v => v
        | Except.error _ => false) h
      simpa using this
    exact eq_of_beq hb
  · intro h
    rw [h]
    simp

end Sunsynk

namespace Sunsynk

/-- The `SensorOption` attrs class of
`src/ha_addon_sunsynk_multi/sensor_options.py`, as used by the driver:
sensors are identified by their IDs (the dict `SOPT` keys sensors by
ID-based equality), and `affects` is the set of sensor IDs to republish. -/
structure DriverSensorOption where
  affects : Finset String
  visible : Bool := true
  startup : Bool := false
  first : Bool := false
deriving DecidableEq

/-- The `sensor_on_update` callback of
`src/ha_addon_sunsynk_multi/driver.py`: when the updated sensor is not in
`SOPT` or its `affects` set is empty, return without touching the queue;
otherwise add all of `affects` to `HASS_DISCOVERY_INFO_UPDATE_QUEUE`
(`set.update`). The new and old values are ignored. -/
def sensor_on_update (sopt : String → Option DriverSensorOption)
    (queue : Finset String) (sen : String) : Finset String :=
  match sopt sen with
  | Option.none => queue
  | some o => if o.affects = ∅ then queue else queue ∪ o.affects

/-- The `affects` set of a configured sensor, empty for unknown sensors. -/
def affectsOf (sopt : String → Option DriverSensorOption) (sen : String) :
    Finset String :=
  match sopt sen with
  | Option.none => ∅
  | some o => o.affects

/-- C9. On a sensor update the discovery-info republish queue becomes exactly
the old queue united with `affects(sen)` — so precisely the sensors in
`affects(sen)` are added, the queue is unchanged when the sensor is not
configured or its `affects` set is empty (the union with `∅` is the queue
itself), and no already-queued element is ever removed. -/
theorem sensor_on_update_spec (sopt : String → Option DriverSensorOption)
    (queue : Finset String) (sen : String) :
    sensor_on_update sopt queue sen = queue ∪ affectsOf sopt sen ∧
    queue ⊆ sensor_on_update sopt queue sen := by
  have h : sensor_on_update sopt queue sen = queue ∪ affectsOf sopt sen := by
    unfold sensor_on_update affectsOf
    cases hs : sopt sen with
    | none => simp
    | some o =>
        by_cases he : o.affects = ∅
        · simp [he]
        · simp [he]
  exact ⟨h, by rw [h]; exact Finset.subset_union_left⟩

end Sunsynk

namespace Sunsynk

/-- The `ConnectorOptions` attrs class of
`src/ha_addon_sunsynk_multi/options.py`. -/
structure ConnectorOptions where
  name : String
  type : String := "tcp"
  host : String := ""
  port : ℤ := 502
  driver : String := "pymodbus"
  timeout : ℤ := 10
  dongle_serial : ℤ := 0
  baudrate : ℤ := 9600
deriving Repr, DecidableEq

/-- The `InverterOptions` attrs class of
`src/ha_addon_sunsynk_multi/options.py`. -/
structure InverterOptions where
  connector : String := ""
  port : String := ""
  modbus_id : ℤ := 0
  ha_prefix : String := ""
  serial_nr : String := ""
  dongle_serial_number : ℤ := 0
deriving Repr, DecidableEq

/-- The duplicate-detection loop of `init_options`
(`src/ha_addon_sunsynk_multi/options.py`): walk the list with a seen-set and
raise `ValueError` on the first repeated element. -/
def dupCheck (msg : String → String) : List String → List String → Except String Unit
  | [], _ => .ok ()
  | x :: rest, seen =>
      if x ∈ seen then .error (msg x) else dupCheck msg rest (x :: seen)

/-- The connector-reference validation loop of `init_options`: an inverter
with a non-empty (truthy) `connector` naming no known connector raises
`ValueError`. -/
def checkRefs : List InverterOptions → List String → Except String Unit
  | [], _ => .ok ()
  | inv :: rest, names =>
      if InverterOptions.connector inv ≠ "" ∧ InverterOptions.connector inv ∉ names
      then .error ("Inverter '" ++ inv.serial_nr ++ "' references unknown connector '"
        ++ InverterOptions.connector inv ++ "'")
      else checkRefs rest names

/-- The validation part of `init_options`
(`src/ha_addon_sunsynk_multi/options.py`, after `OPT.init_addon()` has
loaded the options): duplicate `ha_prefix` check, duplicate connector-name
check, then the connector-reference check, in that order. -/
def init_options (inverters : List InverterOptions)
    (connectors : List ConnectorOptions) : Except String Unit :=
  match dupCheck (fun _ => "HA_PREFIX should be unique")
      (inverters.map (fun i => InverterOptions.ha_prefix i)) [] with
  | .error e => .error e
  | .ok _ =>
      match dupCheck (fun n => "Connector name '" ++ n ++ "' should be unique")
          (connectors.map ConnectorOptions.name) [] with
      | .error e => .error e
      | .ok _ => checkRefs inverters (connectors.map ConnectorOptions.name)

lemma dupCheck_isOk (msg : String → String) : ∀ (l seen : List String),
    (dupCheck msg l seen).isOk = true ↔ l.Nodup ∧ ∀ x ∈ l, x ∉ seen
  | [], seen => by simp [dupCheck, Except.isOk, Except.toBool]
  | x :: rest, seen => by
    by_cases hx : x ∈ seen
    · simp only [dupCheck, if_pos hx]
      constructor
      · intro h
        simp [Except.isOk, Except.toBool] at h
      · rintro ⟨_, hall⟩
        exact absurd hx (hall x (by simp))
    · simp only [dupCheck, if_neg hx]
      rw [dupCheck_isOk msg rest (x :: seen)]
      constructor
      · rintro ⟨hnd, hall⟩
        refine ⟨List.nodup_cons.mpr ⟨?_, hnd⟩, ?_⟩
        · intro hxr
          exact (List.mem_cons_self x seen) |> fun hm => (hall x hxr) hm
        · intro y hy
          rcases List.mem_cons.mp hy with rfl | hyr
          · exact hx
          · intro hys
            exact (hall y hyr) (List.mem_cons_of_mem x hys)
      · rintro ⟨hnd, hall⟩
        obtain ⟨hxr, hnd'⟩ := List.nodup_cons.mp hnd
        refine ⟨hnd', ?_⟩
        intro y hy hmem
        rcases List.mem_cons.mp hmem with rfl | hys
        · exact hxr hy
        · exact (hall y (List.mem_cons_of_mem x hy)) hys

lemma checkRefs_isOk : ∀ (invs : List InverterOptions) (names : List String),
    (checkRefs invs names).isOk = true ↔
      ∀ inv ∈ invs, InverterOptions.connector inv = ""
        ∨ InverterOptions.connector inv ∈ names
  | [], names => by simp [checkRefs, Except.isOk, Except.toBool]
  | inv :: rest, names => by
    by_cases hc : InverterOptions.connector inv ≠ ""
        ∧ InverterOptions.connector inv ∉ names
    · simp only [checkRefs, if_pos hc]
      constructor
      · intro h
        simp [Except.isOk, Except.toBool] at h
      · intro hall
        rcases hall inv (by simp) with h | h
        · exact absurd h hc.1
        · exact absurd h hc.2
    · simp only [checkRefs, if_neg hc]
      rw [checkRefs_isOk rest names]
      push_neg at hc
      constructor
      · intro hall
        intro i hi
        rcases List.mem_cons.mp hi with rfl | hir
        · by_cases he : InverterOptions.connector i = ""
          · exact Or.inl he
          · exact Or.inr (hc he)
        · exact hall i hir
      · intro hall i hi
        exact hall i (List.mem_cons_of_mem inv hi)

/-- C7. `init_options` completes normally exactly when no `ha_prefix`
occurs on two inverters, no connector name occurs twice, and every
inverter's non-empty `connector` field names a connector in the connectors
list; it raises `ValueError` exactly when one of these is violated.  (An
inverter with an empty `connector` field uses the legacy port path and is
not checked.) -/
theorem init_options_ok_iff (inverters : List InverterOptions)
    (connectors : List ConnectorOptions) :
    (init_options inverters connectors).isOk = true ↔
      ((inverters.map (fun i => InverterOptions.ha_prefix i)).Nodup ∧
       (connectors.map ConnectorOptions.name).Nodup ∧
       ∀ inv ∈ inverters, InverterOptions.connector inv = ""
         ∨ InverterOptions.connector inv ∈ connectors.map ConnectorOptions.name) := by
  unfold init_options
  rcases h1 : dupCheck (fun _ => "HA_PREFIX should be unique")
      (inverters.map (fun i => InverterOptions.ha_prefix i)) [] with e1 | u1
  · have := (dupCheck_isOk (fun _ => "HA_PREFIX should be unique") (inverters.map (fun i => InverterOptions.ha_prefix i)) [])
    rw [h1] at this
    simp [Except.isOk, Except.toBool] at this ⊢
    intro hnd
    exact absurd (by simpa using hnd) this
  · have hd1 := (dupCheck_isOk (fun _ => "HA_PREFIX should be unique") (inverters.map (fun i => InverterOptions.ha_prefix i)) [])
    rw [h1] at hd1
    simp [Except.isOk, Except.toBool] at hd1
    rcases h2 : dupCheck (fun n => "Connector name '" ++ n ++ "' should be unique")
        (connectors.map ConnectorOptions.name) [] with e2 | u2
    · have hd2 := (dupCheck_isOk (fun n => "Connector name '" ++ n ++ "' should be unique") (connectors.map ConnectorOptions.name) [])
      rw [h2] at hd2
      simp [Except.isOk, Except.toBool] at hd2
      simp [Except.isOk, Except.toBool]
      intro _ hnd
      exact absurd hnd hd2
    · have hd2 := (dupCheck_isOk (fun n => "Connector name '" ++ n ++ "' should be unique") (connectors.map ConnectorOptions.name) [])
      rw [h2] at hd2
      simp [Except.isOk, Except.toBool] at hd2
      rw [checkRefs_isOk]
      constructor
      · intro h
        exact ⟨hd1, hd2, h⟩
      · rintro ⟨_, _, h⟩
        exact h

end Sunsynk

namespace Sunsynk

/-- Modelled from the spec: the `Schedule` attrs class
(`ha_addon_sunsynk_multi/timer_schedule.py` is not under src/):
`{key, read_every, report_every, change_any, change_by, change_percent}`. -/
structure Schedule where
  key : String
  read_every : ℤ := 60
  report_every : ℤ := 60
  change_any : Bool := false
  change_by : ℚ := 0
  change_percent : ℤ := 0
deriving Repr, DecidableEq

/-- The `Options` attrs class of `src/ha_addon_sunsynk_multi/options.py`.
The inherited `MQTTOptions` fields (the class lives in the external
`mqtt_entity` package) are modelled from the spec's configuration surface:
`mqtt_host`, `mqtt_port`, `mqtt_username`, `mqtt_password`. -/
structure Options where
  mqtt_host : String := ""
  mqtt_port : ℤ := 1883
  mqtt_username : String := ""
  mqtt_password : String := ""
  number_entity_mode : String := "auto"
  prog_time_interval : ℤ := 15
  connectors : List ConnectorOptions := []
  inverters : List InverterOptions := []
  sensor_definitions : String := "single-phase"
  sensors : List String := []
  sensors_first_inverter : List String := []
  read_allow_gap : ℤ := 2
  read_sensors_batch_size : ℤ := 20
  schedules : List Schedule := []
  timeout : ℤ := 10
  debug : ℤ := 0
  driver : String := "pymodbus"
  manufacturer : String := "Sunsynk"
  debug_device : String := ""
deriving Repr, DecidableEq

/-- A JSON value in the request body of the live-config endpoint. -/
inductive PyData where
  | int (i : ℤ) : PyData
  | str (s : String) : PyData
  | float (q : ℚ) : PyData
  | other : PyData
deriving Repr, DecidableEq

/-- Python's `int(x)` conversion as used by `update_live_config`: succeeds on
ints, on numeric strings and on floats (truncating toward zero); raises
`ValueError`/`TypeError` (modelled as `none`) otherwise. -/
def pyInt : PyData → Option ℤ
  | .int i => some i
  | .str s => s.toInt?
  | .float q => some (q.num / (q.den : ℤ))
  | .other => Option.none

/-- `setattr(_options, field, value)` for the four live-updatable fields of
`update_live_config` (`src/ha_addon_sunsynk_multi/web_gui/server.py`); any
other field name assigns nothing. -/
def setLiveField (o : Options) (field : String) (i : ℤ) : Options :=
  if field = "debug" then { o with debug := i }
  else if field = "timeout" then { o with timeout := i }
  else if field = "read_sensors_batch_size" then { o with read_sensors_batch_size := i }
  else if field = "read_allow_gap" then { o with read_allow_gap := i }
  else o

/-- One iteration of the `for field, converter in live_updatable.items()`
loop of `update_live_config`: skip absent keys; a failed `int()` conversion
records an error and assigns nothing; a successful conversion assigns the
field and records it as updated. -/
def liveStep (data : List (String × PyData)) (field : String)
    (acc : Options × List String × List String) :
    Options × List String × List String :=
  match data.lookup field with
  | Option.none => acc
  | some v =>
      match pyInt v with
      | some i => (setLiveField acc.1 field i, acc.2.1 ++ [field], acc.2.2)
      | Option.none => (acc.1, acc.2.1, acc.2.2 ++ [field])

/-- The `live_updatable` field list of `update_live_config`, in dict order. -/
def live_updatable : List String :=
  ["debug", "timeout", "read_sensors_batch_size", "read_allow_gap"]

/-- The `update_live_config` handler (POST `/api/config/live`): fold the
live-updatable fields over the request body, returning the new options with
the `updated` and `errors` lists. -/
def update_live_config (o : Options) (data : List (String × PyData)) :
    Options × List String × List String :=
  live_updatable.foldl (fun acc f => liveStep data f acc) (o, [], [])

/-- Every `Options` field other than the four live-updatable ones, bundled so
that one equation states the endpoint's frame. -/
def optionsFrame (o : Options) :=
  (o.mqtt_host, o.mqtt_port, o.mqtt_username, o.mqtt_password,
   o.number_entity_mode, o.prog_time_interval, o.connectors, o.inverters,
   o.sensor_definitions, o.sensors, o.sensors_first_inverter, o.schedules,
   o.driver, o.manufacturer, o.debug_device)

lemma setLiveField_frame (o : Options) (field : String) (i : ℤ) :
    optionsFrame (setLiveField o field i) = optionsFrame o := by
  unfold setLiveField optionsFrame
  split_ifs <;> rfl

lemma liveStep_frame (data : List (String × PyData)) (field : String)
    (acc : Options × List String × List String) :
    optionsFrame (liveStep data field acc).1 = optionsFrame acc.1 := by
  cases hd : data.lookup field with
  | none => simp [liveStep, hd]
  | some v =>
      cases hp : pyInt v with
      | none => simp [liveStep, hd, hp]
      | some i => simp [liveStep, hd, hp, setLiveField_frame]

/-- C8. For every request body, `update_live_config` leaves every `Options`
field other than `debug`, `timeout`, `read_sensors_batch_size` and
`read_allow_gap` unchanged: the sensors, inverters, schedules, connectors,
driver, MQTT settings and all remaining fields of the resulting options
equal those of the input options, whatever keys the request contains. -/
theorem update_live_config_frame (o : Options) (data : List (String × PyData)) :
    optionsFrame (update_live_config o data).1 = optionsFrame o := by
  unfold update_live_config live_updatable
  simp only [List.foldl_cons, List.foldl_nil]
  rw [liveStep_frame, liveStep_frame, liveStep_frame, liveStep_frame]

end Sunsynk

namespace Sunsynk

/-- A sensor dependency graph over `n` sensors
(`Fin n` stands for the finite set of defined sensors): `deps` models
`RWSensor.dependencies`, `isRW` the `isinstance(sensor, RWSensor)` test and
`inGroup` the "sensor appears in some `SENSOR_GROUPS` entry" test of
`src/ha_addon_sunsynk_multi/sensor_options.py`. -/
structure DepGraph (n : ℕ) where
  deps : Fin n → List (Fin n)
  isRW : Fin n → Bool
  inGroup : Fin n → Bool

/-- A `SensorOption` entry as created by `_add_sensor_with_deps`: its
visibility and the `affects` set. -/
structure SOEntry (n : ℕ) where
  visible : Bool
  affects : List (Fin n)
deriving DecidableEq, Repr

/-- The mutable state of `SensorOptions`: the insertion-ordered `SOPT` dict
(`self[sensor] = SensorOption(...)`) and the `startup` set. -/
structure SState (n : ℕ) where
  sopt : List (Fin n × SOEntry n)
  startup : List (Fin n)
deriving DecidableEq, Repr

/-- Python `set.add`: append the element when it is not already present. -/
def insertNew {α : Type} [DecidableEq α] (x : α) (l : List α) : List α :=
  if x ∈ l then l else l ++ [x]

/-- `self[dep].affects.add(sensor)`: add `s` to the affects set of the entry
keyed by `d`. -/
def addAffects {n : ℕ} (st : SState n) (d s : Fin n) : SState n :=
  { st with sopt := st.sopt.map (fun p =>
      if p.1 = d then (p.1, ⟨p.2.visible, insertNew s p.2.affects⟩) else p) }

mutual

/-- The `SensorOptions._add_sensor_with_deps` method of
`src/ha_addon_sunsynk_multi/sensor_options.py`: a sensor already on the
current depth-first path is a cycle — the traversal logs and returns,
dropping the back-edge; otherwise the sensor joins the path (each recursive
call receives `path.copy()`, so the trailing `path.remove(sensor)` of the
Python code has no cross-call effect), is added to `startup`, is added to
`SOPT` when visible, of depth at most 2, or in a configured group, and its
dependencies are traversed when it is an `RWSensor`.  Lean accepts this
mutual recursion as well-founded because every recursive call strictly
enlarges `path` inside the finite sensor set — the traversal terminates on
every dependency graph, cyclic ones included. -/
def addSensorWithDeps {n : ℕ} (g : DepGraph n) (s : Fin n) (visible : Bool)
    (path : Finset (Fin n)) (st : SState n) : SState n :=
  if hs : s ∈ path then st
  else
    let path2 := insert s path
    let st1 : SState n := { st with startup := insertNew s st.startup }
    let st2 : SState n :=
      if visible = true ∨ path2.card ≤ 2 ∨ g.inGroup s = true then
        (if (st1.sopt.lookup s).isSome then st1
         else { st1 with sopt := st1.sopt ++ [(s, ⟨visible || g.inGroup s, []⟩)] })
      else st1
    if g.isRW s then addDeps g s visible path2 (g.deps s) st2 else st2
termination_by ((n + 1) - path.card, 0, 0)
decreasing_by
  simp_wf
  left
  have h1 : (insert s path).card = path.card + 1 :=
    Finset.card_insert_of_not_mem hs
  have h2 : path.card ≤ n := by
    have h3 := Finset.card_le_univ path
    simpa using h3
  omega

/-- The `for dep in sensor.dependencies` loop of `_add_sensor_with_deps`:
recursively add each dependency (with `path.copy()` semantics), then record
the inverse `affects` edge when both sensors ended up in `SOPT`. -/
def addDeps {n : ℕ} (g : DepGraph n) (s : Fin n) (visible : Bool)
    (path2 : Finset (Fin n)) (ds : List (Fin n)) (st : SState n) : SState n :=
  match ds with
  | [] => st
  | d :: rest =>
      let stA := addSensorWithDeps g d (visible || g.inGroup d) path2 st
      let stB := if (stA.sopt.lookup d).isSome ∧ (stA.sopt.lookup s).isSome
                 then addAffects stA d s else stA
      addDeps g s visible path2 rest stB
termination_by ((n + 1) - path2.card, 1, ds.length)

end

/-- The two-sensor cycle A→B→A of the C6 claim: both sensors are writable
with the other as the only dependency. -/
def cycleGraph : DepGraph 2 where
  deps := fun i => [⟨(i.val + 1) % 2, by omega⟩]
  isRW := fun _ => true
  inGroup := fun _ => false

/-- Adding sensor A of the cycle A→B→A to an empty configuration. -/
def cycleResult : SState 2 := addSensorWithDeps cycleGraph 0 true ∅ ⟨[], []⟩

/-- C6. The dependency traversal drops back-edges — a sensor already on the
current depth-first path returns the state unchanged, so the recursion
(well-founded by the strictly growing path within the finite sensor set)
never runs unboundedly — and for the cyclic graph A→B→A both sensors are
still registered: both end up in `SOPT` (each recorded as affecting the
other) and in the startup set. -/
theorem add_sensor_with_deps_cycle_safe :
    (∀ (n : ℕ) (g : DepGraph n) (s : Fin n) (visible : Bool)
        (path : Finset (Fin n)) (st : SState n), s ∈ path →
        addSensorWithDeps g s visible path st = st) ∧
    cycleResult = ⟨[(0, ⟨true, [1]⟩), (1, ⟨true, [0]⟩)], [0, 1]⟩ ∧
    (cycleResult.sopt.lookup 0).isSome = true ∧
    (cycleResult.sopt.lookup 1).isSome = true ∧
    (0 : Fin 2) ∈ cycleResult.startup ∧ (1 : Fin 2) ∈ cycleResult.startup := by
  have hback : ∀ (n : ℕ) (g : DepGraph n) (s : Fin n) (visible : Bool)
      (path : Finset (Fin n)) (st : SState n), s ∈ path →
      addSensorWithDeps g s visible path st = st := by
    intro n g s visible path st h
    rw [addSensorWithDeps]
    simp [h]
  have hres : cycleResult = ⟨[(0, ⟨true, [1]⟩), (1, ⟨true, [0]⟩)], [0, 1]⟩ := by
    simp [cycleResult, addSensorWithDeps, addDeps, cycleGraph, insertNew,
      addAffects, List.lookup]
  refine ⟨hback, hres, ?_, ?_, ?_, ?_⟩ <;> rw [hres] <;> decide

/-- Witness for `add_sensor_with_deps_cycle_safe`: a concrete back-edge —
re-adding sensor 0 while it is already on the path — leaves the state
unchanged. -/
theorem add_sensor_with_deps_cycle_safe_witness :
    addSensorWithDeps cycleGraph 0 true {0} ⟨[], []⟩ = ⟨[], []⟩ :=
  add_sensor_with_deps_cycle_safe.1 2 cycleGraph 0 true {0} ⟨[], []⟩
    (by decide)

end Sunsynk
